import Mathlib

/-!
Verification development for the pdftools repository (src/pdfmanip.py and
src/pdfcrop.py).  The Python code is shallowly embedded: pure functions become
Lean functions over `List Char` / `Int` / `Nat`, file-system effects become an
explicit association-list file system plus an event trace, and `float`
page-geometry arithmetic is modelled over `ℚ`.  Strings are processed at the
`List Char` level (ASCII; the repository's range expressions are ASCII) so that
every definition reduces by `rfl`/`decide`.
-/

namespace PdfTools

/-! ### Python string primitives -/

/-- Leading-whitespace removal, as in the leading half of `str.strip()`. -/
def dropLead (l : List Char) : List Char := l.dropWhile Char.isWhitespace

/-- Model of Python `str.strip()`: remove leading and trailing whitespace. -/
def pyStrip (l : List Char) : List Char :=
  ((dropLead l).reverse.dropWhile Char.isWhitespace).reverse

/-- Model of `str.lower()` restricted to ASCII letters (the only characters the
range grammar uses). -/
def pyLowerCh : Char → Char
  | 'A' => 'a' | 'B' => 'b' | 'C' => 'c' | 'D' => 'd' | 'E' => 'e' | 'F' => 'f'
  | 'G' => 'g' | 'H' => 'h' | 'I' => 'i' | 'J' => 'j' | 'K' => 'k' | 'L' => 'l'
  | 'M' => 'm' | 'N' => 'n' | 'O' => 'o' | 'P' => 'p' | 'Q' => 'q' | 'R' => 'r'
  | 'S' => 's' | 'T' => 't' | 'U' => 'u' | 'V' => 'v' | 'W' => 'w' | 'X' => 'x'
  | 'Y' => 'y' | 'Z' => 'z'
  | c => c

/-- Model of `str.upper()` restricted to ASCII letters (used to state the
case-insensitivity properties). -/
def pyUpperCh : Char → Char
  | 'a' => 'A' | 'b' => 'B' | 'c' => 'C' | 'd' => 'D' | 'e' => 'E' | 'f' => 'F'
  | 'g' => 'G' | 'h' => 'H' | 'i' => 'I' | 'j' => 'J' | 'k' => 'K' | 'l' => 'L'
  | 'm' => 'M' | 'n' => 'N' | 'o' => 'O' | 'p' => 'P' | 'q' => 'Q' | 'r' => 'R'
  | 's' => 'S' | 't' => 'T' | 'u' => 'U' | 'v' => 'V' | 'w' => 'W' | 'x' => 'X'
  | 'y' => 'Y' | 'z' => 'Z'
  | c => c

/-- Model of `part.strip().lower()` (pdfmanip.py line 40 and the whole-string
normalisation at line 35). -/
def normTok (l : List Char) : List Char := (pyStrip l).map pyLowerCh

/-- Model of Python `s.split(c)` for a single-character separator: split at
every occurrence, keeping empty pieces. -/
def splitOnChar (c : Char) : List Char → List (List Char)
  | [] => [[]]
  | x :: xs =>
    if x = c then [] :: splitOnChar c xs
    else
      match splitOnChar c xs with
      | [] => [[x]]
      | h :: t => (x :: h) :: t

/-- The substring before the first hyphen: first component of
`part.split('-', 1)` (pdfmanip.py line 44). -/
def tokBefore (p : List Char) : List Char := p.takeWhile (fun c => !(c == '-'))

/-- The substring after the first hyphen: second component of
`part.split('-', 1)` (pdfmanip.py line 44). -/
def tokAfter (p : List Char) : List Char := (p.dropWhile (fun c => !(c == '-'))).drop 1

/-- Digit run of Python `int()`, including single underscores between digits
(`int("1_0") == 10`); accumulator-style so it reduces by `rfl`. -/
def pyDigitsCore (acc : Nat) : List Char → Option Nat
  | [] => some acc
  | c :: cs =>
    if c.isDigit then pyDigitsCore (10 * acc + (c.toNat - 48)) cs
    else if c = '_' then
      match cs with
      | [] => none
      | d :: cs2 =>
        if d.isDigit then pyDigitsCore (10 * acc + (d.toNat - 48)) cs2 else none
    else none

/-- A nonempty digit run (first character must be a digit). -/
def pyDigits : List Char → Option Nat
  | [] => none
  | c :: cs => if c.isDigit then pyDigitsCore (c.toNat - 48) cs else none

/-- Model of Python `int(s)` on ASCII input: surrounding whitespace is ignored,
an optional single sign is allowed, then a nonempty digit run. Returns `none`
where `int()` raises `ValueError`. -/
def pyInt (l : List Char) : Option Int :=
  match pyStrip l with
  | '+' :: rest => (pyDigits rest).map Int.ofNat
  | '-' :: rest => (pyDigits rest).map (fun n => -(n : Int))
  | rest => (pyDigits rest).map Int.ofNat

/-! ### The range resolver (`parse_page_range`, pdfmanip.py lines 20-77) -/

/-- The error taxonomy of `parse_page_range`: each constructor is one of the
`ValueError` messages of pdfmanip.py (lines 50, 55, 57, 69, 73, 75), carrying
the data the message interpolates. -/
inductive RangeError
  | invalidInRange (part : String)
  | rangeOutOfBoundsEmptyPdf (part : String)
  | rangeOutOfBounds (part : String) (total : Nat)
  | invalidSingle (part : String)
  | singleOutOfBoundsEmptyPdf (part : String)
  | singleOutOfBounds (part : String) (total : Nat)
deriving DecidableEq, Repr

/-- Endpoint resolution (pdfmanip.py lines 47-48 and 67): the literal `end`
resolves to `total_pages`, anything else goes through `int()`. -/
def resolveTok (total : Nat) (tok : List Char) : Option Int :=
  if tok = "end".data then some (total : Int) else pyInt tok

/-- Insertion of one value into the strictly-sorted accumulator; models adding
one element to the Python `set` whose sorted extraction is the final result. -/
def insortInt (x : Int) : List Int → List Int
  | [] => [x]
  | y :: ys =>
    if x < y then x :: y :: ys
    else if x = y then y :: ys
    else y :: insortInt x ys

/-- The integers of Python `range(lo, hi + 1)`. -/
def intRangeIncl (lo hi : Int) : List Int :=
  (List.range (hi + 1 - lo).toNat).map (fun (k : Nat) => lo + (k : Int))

/-- Of pdfmanip.py lines 60-64: swap a reversed range, then add `i - 1` for
every `i` in the inclusive interval. -/
def collectRange (acc : List Int) (a b : Int) : List Int :=
  let p := if a > b then (b, a) else (a, b)
  (intRangeIncl p.1 p.2).foldl (fun ac i => insortInt (i - 1) ac) acc

/-- Bounds check and collection for a hyphenated term with already-resolved
endpoints (pdfmanip.py lines 52-64). -/
def rangeTermStep (total : Nat) (part : List Char) (acc : List Int) (a b : Int) :
    Except RangeError (List Int) :=
  if ¬(1 ≤ a ∧ a ≤ (total : Int) ∧ 1 ≤ b ∧ b ≤ (total : Int)) then
    if total = 0 ∧ (a ≠ 0 ∨ b ≠ 0) then .error (.rangeOutOfBoundsEmptyPdf part.asString)
    else if 0 < total then .error (.rangeOutOfBounds part.asString total)
    else .ok (collectRange acc a b)
  else .ok (collectRange acc a b)

/-- Bounds check and collection for a single-page term with already-resolved
value (pdfmanip.py lines 71-76). -/
def singleTermStep (total : Nat) (part : List Char) (acc : List Int) (v : Int) :
    Except RangeError (List Int) :=
  if ¬(1 ≤ v ∧ v ≤ (total : Int)) then
    if total = 0 ∧ v ≠ 0 then .error (.singleOutOfBoundsEmptyPdf part.asString)
    else if 0 < total then .error (.singleOutOfBounds part.asString total)
    else .ok (insortInt (v - 1) acc)
  else .ok (insortInt (v - 1) acc)

/-- Body of the per-term loop of `parse_page_range` (pdfmanip.py lines 40-76),
acting on the already stripped-and-lowercased term `p`. -/
def processCore (total : Nat) (acc : List Int) (p : List Char) :
    Except RangeError (List Int) :=
  if p = [] then .ok acc
  else if p.contains '-' then
    match resolveTok total (tokBefore p), resolveTok total (tokAfter p) with
    | some a, some b => rangeTermStep total p acc a b
    | _, _ => .error (.invalidInRange p.asString)
  else
    match resolveTok total p with
    | some v => singleTermStep total p acc v
    | none => .error (.invalidSingle p.asString)

/-- One iteration of the loop: normalise the raw comma-separated part, then run
the term body (pdfmanip.py line 40). -/
def processPart (total : Nat) (acc : List Int) (part : List Char) :
    Except RangeError (List Int) :=
  processCore total acc (normTok part)

/-- The loop over all comma-separated parts (pdfmanip.py lines 39-76). -/
def processParts (total : Nat) : List (List Char) → List Int → Except RangeError (List Int)
  | [], acc => .ok acc
  | p :: ps, acc =>
    match processPart total acc p with
    | .error e => .error e
    | .ok acc2 => processParts total ps acc2

/-- The resolver on the character list of the expression: the empty expression
resolves to the empty list, `all` (after normalisation) to the whole document,
anything else goes through the per-term loop (pdfmanip.py lines 31-77). -/
def parsePartsOf (l : List Char) (total : Nat) : Except RangeError (List Int) :=
  if l = [] then .ok []
  else if normTok l = "all".data then
    .ok ((List.range total).map (fun (k : Nat) => (k : Int)))
  else processParts total (splitOnChar ',' l) []

/-- Model of `parse_page_range(range_str, total_pages)` (pdfmanip.py lines
20-77).  Returns `.error` where the Python raises `ValueError`; on success the
accumulator is maintained strictly sorted, matching `sorted(list(indices))`. -/
def parse_page_range (range_str : String) (total_pages : Nat) :
    Except RangeError (List Int) :=
  parsePartsOf range_str.data total_pages

/-! ### The cropping utility (pdfcrop.py, `crop_pdf_pages_centered`) -/

/-- A PDF rectangle (media box or crop box) by its corner coordinates, in
points.  Python `float` arithmetic is modelled over `ℚ`. -/
structure Rect where
  llx : ℚ
  lly : ℚ
  urx : ℚ
  ury : ℚ
deriving DecidableEq, Repr

/-- `RectangleObject.width` in pypdf: right minus left. -/
def Rect.width (r : Rect) : ℚ := r.urx - r.llx

/-- `RectangleObject.height` in pypdf: top minus bottom. -/
def Rect.height (r : Rect) : ℚ := r.ury - r.lly

/-- Per-page body of `crop_pdf_pages_centered` (pdfcrop.py lines 41-62): given
the target width/height in points and the page's media box, the crop box that
is assigned to the page. -/
def cropPageCentered (targetW targetH : ℚ) (media : Rect) : Rect :=
  let ow := media.width
  let oh := media.height
  let cw := min targetW ow
  let ch := min targetH oh
  let llx := (ow - cw) / 2
  let lly := (oh - ch) / 2
  ⟨llx, lly, llx + cw, lly + ch⟩

/-- `POINTS_PER_INCH` (pdfcrop.py line 6). -/
def POINTS_PER_INCH : ℚ := 72

/-- Model of `crop_pdf_pages_centered` on the page geometry: inch targets are
converted to points, and every page receives its centered crop box. -/
def crop_pdf_pages_centered (targetWInches targetHInches : ℚ) (pages : List Rect) :
    List Rect :=
  pages.map (cropPageCentered (targetWInches * POINTS_PER_INCH) (targetHInches * POINTS_PER_INCH))

/-! ### File-system model for the page operations -/

/-- Page identifiers; the operations only move pages around and never look at
their content. -/
abbrev Page := String

/-- What a path can hold, as far as the operations can observe: a readable PDF
with a page list, a zero-byte file, or an unreadable (corrupt/encrypted)
file. -/
inductive FileData
  | pdf (pages : List Page)
  | blank
  | corrupt
deriving DecidableEq, Repr

/-- The file system: an association list from (absolute) paths to contents.
`os.path.abspath` is modelled as the identity, i.e. paths are compared
verbatim, as the spec's overwrite guard does. -/
abbrev FS := List (String × FileData)

def lookupFS (fs : FS) (p : String) : Option FileData := List.lookup p fs

def pathExists (fs : FS) (p : String) : Bool := (lookupFS fs p).isSome

def setFS (fs : FS) (p : String) (d : FileData) : FS :=
  (p, d) :: fs.filter (fun e => !(e.1 == p))

/-- Model of `os.path.dirname` (posix). -/
def pyDirname (p : String) : String :=
  let head := (p.data.reverse.dropWhile (fun c => !(c == '/'))).reverse
  if head = [] then ""
  else if head.all (fun c => c == '/') then head.asString
  else ((head.reverse.dropWhile (fun c => c == '/')).reverse).asString

/-- Model of `os.path.dirname(p) or '.'`, the directory handed to
`NamedTemporaryFile` for the atomic-replace pattern. -/
def pyTempDir (p : String) : String :=
  if pyDirname p = "" then "." else pyDirname p

/-- Observable events of one operation, in program order: log messages (by
their role, not their text) and file-system actions. -/
inductive Ev
  | readPdf (p : String)
  | writeDirect (p : String)
  | writeTemp (dir : String)
  | writeTempSys
  | renameOver (p : String)
  | copyFile (src dst : String)
  | errSamePath
  | errDestConflict
  | errOutputExists
  | errNotFound (p : String)
  | errRead (p : String)
  | errRange (e : RangeError)
  | errOutOfBounds (pos : Int) (total : Nat)
  | errNoInputs
  | errNoValidInputs
  | warnEmptyInput (p : String)
  | warnNoPagesSelected
  | warnEmptySource
  | warnEmptyOrInvalidRange
  | warnAllCut
  | skipped (p : String)
  | infoNoCut
  | infoDone
deriving DecidableEq, Repr

/-- Whether an event is one of the operation-aborting error logs. -/
def Ev.isErrEv : Ev → Bool
  | .errSamePath => true
  | .errDestConflict => true
  | .errOutputExists => true
  | .errNotFound _ => true
  | .errRead _ => true
  | .errRange _ => true
  | .errOutOfBounds _ _ => true
  | .errNoInputs => true
  | .errNoValidInputs => true
  | _ => false

/-- Model of `str.strip()` at the `String` level. -/
def stripStr (s : String) : List Char := pyStrip s.data

/-- Model of `s.strip().lower()` at the `String` level. -/
def normStr (s : String) : List Char := normTok s.data

/-! ### `extract_pdf_pages` (pdfmanip.py lines 79-127) -/

/-- Model of `extract_pdf_pages(input, output, range, overwrite)`: the new file
system together with the trace of events.  The unreachable inner `if` at lines
95-98 is modelled verbatim. -/
def extract_pdf_pages (fs : FS) (input output : String) (range_str : String)
    (overwrite : Bool) : FS × List Ev :=
  if input = output then (fs, [.errSamePath])
  else if pathExists fs output = true ∧ overwrite = false then (fs, [.errOutputExists])
  else
    match lookupFS fs input with
    | none => (fs, [.errNotFound input])
    | some .blank => (fs, [.readPdf input, .errRead input])
    | some .corrupt => (fs, [.readPdf input, .errRead input])
    | some (.pdf pages) =>
      let total := pages.length
      if total = 0 ∧ normStr range_str ≠ "all".data ∧ stripStr range_str ≠ [] then
        if normStr range_str = "all".data ∨ stripStr range_str = [] then
          (setFS fs output (.pdf []), [.readPdf input, .warnEmptyInput input, .writeDirect output])
        else (fs, [.readPdf input, .warnEmptyInput input])
      else if total = 0 then
        (setFS fs output (.pdf []), [.readPdf input, .writeDirect output])
      else
        match parse_page_range range_str total with
        | .error e => (fs, [.readPdf input, .errRange e])
        | .ok idxs =>
          if idxs = [] then
            (setFS fs output (.pdf []),
             [.readPdf input, .warnNoPagesSelected, .writeDirect output])
          else
            (setFS fs output (.pdf (idxs.map (fun i => pages.getD i.toNat ""))),
             [.readPdf input, .writeDirect output, .infoDone])

/-! ### `cut_pdf_pages` (pdfmanip.py lines 129-199) -/

/-- The pages kept by a cut: every page whose 0-based index is not in
`idxs` (pdfmanip.py lines 164-167). -/
def keptPages (pages : List Page) (idxs : List Int) : List Page :=
  (pages.enum.filter (fun e => decide ((e.1 : Int) ∉ idxs))).map (fun e => e.2)

/-- Model of `cut_pdf_pages(input, output, range, overwrite)`.  The input PDF
is opened before any overwrite check (line 133); in-place modification goes
through a temp file in the input's directory plus a rename (lines 179-184). -/
def cut_pdf_pages (fs : FS) (input output : String) (range_str : String)
    (overwrite : Bool) : FS × List Ev :=
  match lookupFS fs input with
  | none => (fs, [.errNotFound input])
  | some .blank => (fs, [.readPdf input, .errRead input])
  | some .corrupt => (fs, [.readPdf input, .errRead input])
  | some (.pdf pages) =>
    let total := pages.length
    if input = output ∧ overwrite = false then (fs, [.readPdf input, .errDestConflict])
    else if input ≠ output ∧ pathExists fs output = true ∧ overwrite = false then
      (fs, [.readPdf input, .errOutputExists])
    else if total = 0 then
      if input ≠ output then
        (setFS fs output (.pdf []), [.readPdf input, .warnEmptyInput input, .copyFile input output])
      else (fs, [.readPdf input, .warnEmptyInput input])
    else
      match parse_page_range range_str total with
      | .error e => (fs, [.readPdf input, .errRange e])
      | .ok idxs =>
        if idxs = [] then
          if input ≠ output then
            (setFS fs output (.pdf pages), [.readPdf input, .copyFile input output])
          else (fs, [.readPdf input])
        else
          let kept := keptPages pages idxs
          if kept.length = total then
            if input ≠ output then
              (setFS fs output (.pdf pages), [.readPdf input, .infoNoCut, .copyFile input output])
            else (fs, [.readPdf input, .infoNoCut])
          else
            let warnEvs := if kept.length = 0 then [Ev.warnAllCut] else []
            if input = output then
              (setFS fs input (.pdf kept),
               [Ev.readPdf input] ++ warnEvs ++ [.writeTemp (pyTempDir input), .renameOver input, .infoDone])
            else
              (setFS fs output (.pdf kept),
               [Ev.readPdf input] ++ warnEvs ++ [.writeDirect output, .infoDone])

/-! ### `paste_pdf_pages` (pdfmanip.py lines 201-302) -/

/-- Model of `paste_pdf_pages(target, source, output, insert_before_page,
source_range, overwrite)`.  Note: a `ValueError` raised by `parse_page_range`
on the source range propagates to the handler at line 294, aborting the whole
operation with no output; only a range that *resolves* to the empty selection
degrades to "insert nothing" with a warning (lines 239-241). -/
def paste_pdf_pages (fs : FS) (target source output : String) (insert_before_page : Int)
    (source_range : Option String) (overwrite : Bool) : FS × List Ev :=
  if (output = target ∨ output = source) ∧ overwrite = false then (fs, [.errDestConflict])
  else if ¬(output = target ∨ output = source) ∧ pathExists fs output = true ∧ overwrite = false then
    (fs, [.errOutputExists])
  else
    match lookupFS fs target with
    | none => (fs, [.errNotFound target])
    | some .blank => (fs, [.readPdf target, .errRead target])
    | some .corrupt => (fs, [.readPdf target, .errRead target])
    | some (.pdf tPages) =>
      match lookupFS fs source with
      | none => (fs, [.readPdf target, .errNotFound source])
      | some .blank => (fs, [.readPdf target, .readPdf source, .errRead source])
      | some .corrupt => (fs, [.readPdf target, .readPdf source, .errRead source])
      | some (.pdf sPages) =>
        let t := tPages.length
        if ¬(1 ≤ insert_before_page ∧ insert_before_page ≤ (t : Int) + 1) then
          (fs, [.readPdf target, .readPdf source, .errOutOfBounds insert_before_page t])
        else
          let rangeGiven : Bool := match source_range with
            | some r => !(r == "")
            | none => false
          let selection : Except RangeError (List Page × List Ev) :=
            if rangeGiven = true then
              if sPages.length = 0 then .ok ([], [.warnEmptySource])
              else
                match parse_page_range (source_range.getD "") sPages.length with
                | .error e => .error e
                | .ok [] => .ok ([], [.warnEmptyOrInvalidRange])
                | .ok idxs =>
                  .ok (idxs.map (fun i => sPages.getD i.toNat ""), [.writeTempSys])
            else if sPages.length = 0 then .ok ([], [.warnEmptySource])
            else .ok (sPages, [])
          match selection with
          | .error e => (fs, [.readPdf target, .readPdf source, .errRange e])
          | .ok (sel, selEvs) =>
            let result := tPages.take (insert_before_page - 1).toNat ++ sel ++
                          tPages.drop (insert_before_page - 1).toNat
            if output = target ∨ output = source then
              (setFS fs output (.pdf result),
               [Ev.readPdf target, Ev.readPdf source] ++ selEvs ++
                 [.readPdf target, .writeTemp (pyTempDir output), .renameOver output, .infoDone])
            else
              (setFS fs output (.pdf result),
               [Ev.readPdf target, Ev.readPdf source] ++ selEvs ++
                 [.readPdf target, .writeDirect output, .infoDone])

/-! ### `merge_pdf_files` (pdfmanip.py lines 372-429) -/

/-- Whether one merge input is skipped (pdfmanip.py lines 394-404): missing,
zero bytes, unreadable, or zero pages. -/
def mergeSkips (fs : FS) (p : String) : Bool :=
  match lookupFS fs p with
  | none => true
  | some .blank => true
  | some .corrupt => true
  | some (.pdf pages) => pages.isEmpty

/-- One iteration of the merge loop (pdfmanip.py lines 391-412): skip the
input (recording why) or append its pages and count it valid. -/
def mergeStep (fs : FS) (acc : List Page × Nat × List Ev) (p : String) :
    List Page × Nat × List Ev :=
  match lookupFS fs p with
  | none => (acc.1, acc.2.1, acc.2.2 ++ [Ev.skipped p])
  | some .blank => (acc.1, acc.2.1, acc.2.2 ++ [Ev.skipped p])
  | some .corrupt => (acc.1, acc.2.1, acc.2.2 ++ [Ev.readPdf p, Ev.skipped p])
  | some (.pdf pages) =>
    if pages.isEmpty then (acc.1, acc.2.1, acc.2.2 ++ [Ev.readPdf p, Ev.skipped p])
    else (acc.1 ++ pages, acc.2.1 + 1, acc.2.2 ++ [Ev.readPdf p])

/-- The per-input scan of the merge loop (pdfmanip.py lines 390-412),
accumulating appended pages, the count of valid inputs, and the trace. -/
def mergeScan (fs : FS) (inputs : List String) : List Page × Nat × List Ev :=
  inputs.foldl (mergeStep fs) ([], 0, [])

/-- The page lists of the non-skipped merge inputs, in list order. -/
def mergeKept (fs : FS) (inputs : List String) : List (List Page) :=
  inputs.filterMap (fun p =>
    match lookupFS fs p with
    | some (.pdf pages) => if pages.isEmpty then none else some pages
    | _ => none)

/-- The pages a path holds (empty for anything but a readable PDF). -/
def pagesOf (fs : FS) (p : String) : List Page :=
  match lookupFS fs p with
  | some (.pdf pages) => pages
  | _ => []

/-- The events the merge scan records for one input. -/
def mergeEvsOf (fs : FS) (p : String) : List Ev :=
  match lookupFS fs p with
  | none => [.skipped p]
  | some .blank => [.skipped p]
  | some .corrupt => [.readPdf p, .skipped p]
  | some (.pdf pages) =>
    if pages.isEmpty then [.readPdf p, .skipped p] else [.readPdf p]

/-- The events of the whole merge scan, in input order. -/
def mergeEvs (fs : FS) (inputs : List String) : List Ev :=
  (inputs.map (mergeEvsOf fs)).flatten

/-- Model of `merge_pdf_files(inputs, output, overwrite)`.  When at least one
input is valid, the result is written by opening the output path directly
(line 422), not via a temporary file. -/
def merge_pdf_files (fs : FS) (inputs : List String) (output : String)
    (overwrite : Bool) : FS × List Ev :=
  if inputs = [] then (fs, [.errNoInputs])
  else if output ∈ inputs ∧ overwrite = false then (fs, [.errDestConflict])
  else if ¬(output ∈ inputs) ∧ pathExists fs output = true ∧ overwrite = false then
    (fs, [.errOutputExists])
  else
    let scan := mergeScan fs inputs
    if scan.2.1 = 0 then (fs, scan.2.2 ++ [.errNoValidInputs])
    else (setFS fs output (.pdf scan.1), scan.2.2 ++ [.writeDirect output, .infoDone])

/-! ### Lemmas about the sorted accumulator -/

theorem mem_insortInt (x : Int) : ∀ (l : List Int) (y : Int),
    y ∈ insortInt x l ↔ y = x ∨ y ∈ l := by
  intro l
  induction l with
  | nil => intro y; simp [insortInt]
  | cons z zs ih =>
    intro y
    unfold insortInt
    split
    · simp only [List.mem_cons]
    · split
      next h1 h2 =>
        subst h2
        simp only [List.mem_cons]; tauto
      next h1 h2 =>
        simp only [List.mem_cons, ih]; tauto

theorem pairwise_insortInt (x : Int) : ∀ (l : List Int),
    l.Pairwise (· < ·) → (insortInt x l).Pairwise (· < ·) := by
  intro l
  induction l with
  | nil => intro _; simp [insortInt]
  | cons z zs ih =>
    intro hp
    rw [List.pairwise_cons] at hp
    obtain ⟨hz, hzs⟩ := hp
    unfold insortInt
    split
    next h1 =>
      rw [List.pairwise_cons]
      refine ⟨?_, ?_⟩
      · intro y hy
        rcases List.mem_cons.mp hy with rfl | h
        · exact h1
        · exact lt_trans h1 (hz y h)
      · rw [List.pairwise_cons]; exact ⟨hz, hzs⟩
    next h1 =>
      split
      next h2 =>
        rw [List.pairwise_cons]; exact ⟨hz, hzs⟩
      next h2 =>
        rw [List.pairwise_cons]
        refine ⟨?_, ih hzs⟩
        intro y hy
        rcases (mem_insortInt x zs y).mp hy with rfl | h
        · omega
        · exact hz y h

theorem mem_foldIns : ∀ (L : List Int) (acc : List Int) (y : Int),
    y ∈ L.foldl (fun ac i => insortInt (i - 1) ac) acc ↔
      (∃ i ∈ L, y = i - 1) ∨ y ∈ acc := by
  intro L
  induction L with
  | nil => intro acc y; simp
  | cons i is ih =>
    intro acc y
    simp only [List.foldl_cons, ih, mem_insortInt, List.mem_cons]
    constructor
    · rintro (⟨j, hj, rfl⟩ | (rfl | hy))
      · exact Or.inl ⟨j, Or.inr hj, rfl⟩
      · exact Or.inl ⟨i, Or.inl rfl, rfl⟩
      · exact Or.inr hy
    · rintro (⟨j, (rfl | hj), rfl⟩ | hy)
      · exact Or.inr (Or.inl rfl)
      · exact Or.inl ⟨j, hj, rfl⟩
      · exact Or.inr (Or.inr hy)

theorem pairwise_foldIns : ∀ (L acc : List Int), acc.Pairwise (· < ·) →
    (L.foldl (fun ac i => insortInt (i - 1) ac) acc).Pairwise (· < ·) := by
  intro L
  induction L with
  | nil => intro acc h; exact h
  | cons i is ih => intro acc h; exact ih _ (pairwise_insortInt _ _ h)

theorem mem_intRangeIncl {lo hi y : Int} : y ∈ intRangeIncl lo hi ↔ lo ≤ y ∧ y ≤ hi := by
  simp only [intRangeIncl, List.mem_map, List.mem_range]
  constructor
  · rintro ⟨k, hk, rfl⟩; omega
  · rintro ⟨h1, h2⟩
    refine ⟨(y - lo).toNat, by omega, by omega⟩

theorem mem_collectRange {acc : List Int} {a b y : Int} :
    y ∈ collectRange acc a b ↔
      (∃ i : Int, min a b ≤ i ∧ i ≤ max a b ∧ y = i - 1) ∨ y ∈ acc := by
  unfold collectRange
  by_cases h : a > b
  · rw [if_pos h]
    simp only [mem_foldIns, mem_intRangeIncl]
    constructor
    · rintro (⟨i, ⟨hi1, hi2⟩, rfl⟩ | hy)
      · exact Or.inl ⟨i, by omega, by omega, rfl⟩
      · exact Or.inr hy
    · rintro (⟨i, hi1, hi2, rfl⟩ | hy)
      · exact Or.inl ⟨i, ⟨by omega, by omega⟩, rfl⟩
      · exact Or.inr hy
  · rw [if_neg h]
    simp only [mem_foldIns, mem_intRangeIncl]
    constructor
    · rintro (⟨i, ⟨hi1, hi2⟩, rfl⟩ | hy)
      · exact Or.inl ⟨i, by omega, by omega, rfl⟩
      · exact Or.inr hy
    · rintro (⟨i, hi1, hi2, rfl⟩ | hy)
      · exact Or.inl ⟨i, ⟨by omega, by omega⟩, rfl⟩
      · exact Or.inr hy

theorem pairwise_collectRange {acc : List Int} {a b : Int}
    (h : acc.Pairwise (· < ·)) : (collectRange acc a b).Pairwise (· < ·) := by
  unfold collectRange
  by_cases hab : a > b
  · rw [if_pos hab]; exact pairwise_foldIns _ _ h
  · rw [if_neg hab]; exact pairwise_foldIns _ _ h

/-! ### The resolver invariant (claim C1) -/

/-- The in-bounds property the resolver maintains for each collected index:
within `[0, n)` when the document is non-empty, and the special value `-1`
(from a term resolving to page 0) when `n = 0`. -/
def Bnd (n : Nat) (x : Int) : Prop :=
  (0 < n → 0 ≤ x ∧ x < (n : Int)) ∧ (n = 0 → x = -1)

theorem rangeTermStep_inv {total : Nat} {part : List Char} {acc acc2 : List Int}
    {a b : Int} (hp : acc.Pairwise (· < ·)) (hb : ∀ x ∈ acc, Bnd total x)
    (h : rangeTermStep total part acc a b = .ok acc2) :
    acc2.Pairwise (· < ·) ∧ ∀ x ∈ acc2, Bnd total x := by
  unfold rangeTermStep at h
  by_cases hc : 1 ≤ a ∧ a ≤ (total : Int) ∧ 1 ≤ b ∧ b ≤ (total : Int)
  · rw [if_neg (not_not_intro hc)] at h
    cases h
    refine ⟨pairwise_collectRange hp, ?_⟩
    intro x hx
    rcases mem_collectRange.mp hx with ⟨i, hi1, hi2, rfl⟩ | hx
    · constructor
      · intro _; omega
      · intro h0; omega
    · exact hb x hx
  · rw [if_pos hc] at h
    by_cases h1 : total = 0 ∧ (a ≠ 0 ∨ b ≠ 0)
    · rw [if_pos h1] at h; simp at h
    · rw [if_neg h1] at h
      by_cases h2 : 0 < total
      · rw [if_pos h2] at h; simp at h
      · rw [if_neg h2] at h
        cases h
        have htot : total = 0 := by omega
        have hab : a = 0 ∧ b = 0 := by
          by_contra hcon
          exact h1 ⟨htot, by tauto⟩
        refine ⟨pairwise_collectRange hp, ?_⟩
        intro x hx
        rcases mem_collectRange.mp hx with ⟨i, hi1, hi2, rfl⟩ | hx
        · constructor
          · intro hpos; omega
          · intro _; omega
        · exact hb x hx

theorem singleTermStep_inv {total : Nat} {part : List Char} {acc acc2 : List Int}
    {v : Int} (hp : acc.Pairwise (· < ·)) (hb : ∀ x ∈ acc, Bnd total x)
    (h : singleTermStep total part acc v = .ok acc2) :
    acc2.Pairwise (· < ·) ∧ ∀ x ∈ acc2, Bnd total x := by
  unfold singleTermStep at h
  by_cases hc : 1 ≤ v ∧ v ≤ (total : Int)
  · rw [if_neg (not_not_intro hc)] at h
    cases h
    refine ⟨pairwise_insortInt _ _ hp, ?_⟩
    intro x hx
    rcases (mem_insortInt _ _ _).mp hx with rfl | hx
    · exact ⟨fun _ => by omega, fun h0 => by omega⟩
    · exact hb x hx
  · rw [if_pos hc] at h
    by_cases h1 : total = 0 ∧ v ≠ 0
    · rw [if_pos h1] at h; simp at h
    · rw [if_neg h1] at h
      by_cases h2 : 0 < total
      · rw [if_pos h2] at h; simp at h
      · rw [if_neg h2] at h
        cases h
        have htot : total = 0 := by omega
        have hv : v = 0 := by
          by_contra hcon
          exact h1 ⟨htot, hcon⟩
        refine ⟨pairwise_insortInt _ _ hp, ?_⟩
        intro x hx
        rcases (mem_insortInt _ _ _).mp hx with rfl | hx
        · exact ⟨fun hpos => by omega, fun _ => by omega⟩
        · exact hb x hx

theorem processCore_inv {total : Nat} {acc acc2 : List Int} {p : List Char}
    (hp : acc.Pairwise (· < ·)) (hb : ∀ x ∈ acc, Bnd total x)
    (h : processCore total acc p = .ok acc2) :
    acc2.Pairwise (· < ·) ∧ ∀ x ∈ acc2, Bnd total x := by
  unfold processCore at h
  split at h
  · cases h; exact ⟨hp, hb⟩
  · split at h
    · split at h
      · exact rangeTermStep_inv hp hb h
      · simp at h
    · split at h
      · exact singleTermStep_inv hp hb h
      · simp at h

theorem processParts_inv {total : Nat} : ∀ (parts : List (List Char)) (acc acc2 : List Int),
    acc.Pairwise (· < ·) → (∀ x ∈ acc, Bnd total x) →
    processParts total parts acc = .ok acc2 →
    acc2.Pairwise (· < ·) ∧ ∀ x ∈ acc2, Bnd total x := by
  intro parts
  induction parts with
  | nil =>
    intro acc acc2 hp hb h
    unfold processParts at h
    cases h
    exact ⟨hp, hb⟩
  | cons p ps ih =>
    intro acc acc2 hp hb h
    unfold processParts at h
    cases hpp : processPart total acc p with
    | error e => rw [hpp] at h; simp at h
    | ok accm =>
      rw [hpp] at h
      unfold processPart at hpp
      obtain ⟨hp2, hb2⟩ := processCore_inv hp hb hpp
      exact ih accm acc2 hp2 hb2 h

/-- Claim C1, amended.  The resolver either fails or returns a strictly
ascending list of unique indices; for `n > 0` every index is within `[0, n)`;
for `n = 0` the only indices it can return are `-1`, produced by the
empty-document special case of pdfmanip.py lines 53-55 and 72-73, which
accepts any term resolving to the 1-indexed value 0 (the token `0`, or `end`
when the document is empty). -/
theorem C1_resolver_sound (e : String) (n : Nat) (l : List Int)
    (h : parse_page_range e n = .ok l) :
    l.Pairwise (· < ·) ∧
      ∀ x ∈ l, (0 < n → 0 ≤ x ∧ x < (n : Int)) ∧ (n = 0 → x = -1) := by
  unfold parse_page_range parsePartsOf at h
  split at h
  · cases h; simp
  · split at h
    · cases h
      refine ⟨?_, ?_⟩
      · exact (List.pairwise_lt_range n).map _ (fun a b hab => by exact_mod_cast hab)
      · intro x hx
        rcases List.mem_map.mp hx with ⟨k, hk, rfl⟩
        rw [List.mem_range] at hk
        exact ⟨fun _ => ⟨by omega, by omega⟩, fun h0 => by omega⟩
    · exact processParts_inv _ _ _ (List.Pairwise.nil) (by intro x hx; simp at hx) h

/-- Witness for `C1_resolver_sound` at a concrete input. -/
theorem C1_resolver_sound_witness :
    List.Pairwise (· < ·) ([0, 1, 2, 6] : List Int) ∧
      ∀ x ∈ ([0, 1, 2, 6] : List Int),
        (0 < 10 → 0 ≤ x ∧ x < ((10 : Nat) : Int)) ∧ (10 = 0 → x = -1) :=
  C1_resolver_sound "1-3,7" 10 [0, 1, 2, 6] rfl

/-- Counterexample to claim C1 as stated: on the empty document, the
expression `"0"` does not fail; it resolves to the non-empty value `[-1]`,
which is outside `[0, 0)`. -/
theorem C1_counterexample :
    parse_page_range "0" 0 = Except.ok [-1] ∧ (-1 : Int) < 0 :=
  ⟨rfl, by omega⟩

/-! ### Error behaviour of the resolver (claim C6) -/

/-- The error component of a resolver outcome, if any. -/
def errOf : Except RangeError (List Int) → Option RangeError
  | .error e => some e
  | .ok _ => none

theorem errOf_rangeTermStep (total : Nat) (p : List Char) (acc acc2 : List Int)
    (a b : Int) :
    errOf (rangeTermStep total p acc a b) = errOf (rangeTermStep total p acc2 a b) := by
  unfold rangeTermStep
  split
  · split
    · rfl
    · split <;> rfl
  · rfl

theorem errOf_singleTermStep (total : Nat) (p : List Char) (acc acc2 : List Int)
    (v : Int) :
    errOf (singleTermStep total p acc v) = errOf (singleTermStep total p acc2 v) := by
  unfold singleTermStep
  split
  · split
    · rfl
    · split <;> rfl
  · rfl

/-- Whether a term fails does not depend on what earlier terms collected: the
error raised for a part is a function of the part and the page count alone. -/
theorem errOf_processPart (total : Nat) (acc acc2 : List Int) (p : List Char) :
    errOf (processPart total acc p) = errOf (processPart total acc2 p) := by
  unfold processPart processCore
  split
  · rfl
  · split
    · split
      · apply errOf_rangeTermStep
      · rfl
    · split
      · apply errOf_singleTermStep
      · rfl

/-- If any part of the split expression fails on its own, the whole loop
fails, whatever the accumulator holds when that part is reached. -/
theorem processParts_err_of_mem (total : Nat) :
    ∀ (parts : List (List Char)) (acc : List Int),
      (∃ p ∈ parts, errOf (processPart total [] p) ≠ none) →
      ∃ e, processParts total parts acc = .error e := by
  intro parts
  induction parts with
  | nil => intro acc h; simp at h
  | cons p ps ih =>
    intro acc h
    unfold processParts
    cases hpp : processPart total acc p with
    | error e => exact ⟨e, rfl⟩
    | ok accm =>
      rcases h with ⟨q, hq, hqe⟩
      rcases List.mem_cons.mp hq with rfl | hq2
      · exfalso
        have hind := errOf_processPart total acc [] q
        rw [hpp] at hind
        exact hqe hind.symm
      · exact ih accm ⟨q, hq2, hqe⟩

/-- Claim C6, amended.  A malformed token (neither the literal `end` nor
accepted by `int()`) always fails with the malformed-token error naming the
offending term; an out-of-bounds term fails naming the term, except that when
`total_pages = 0` a term resolving to the 1-indexed value 0 is accepted
(pdfmanip.py lines 53-55, 72-73); any single failing term aborts the whole
resolution with no value returned, even if the other terms are valid. -/
theorem C6_eager_failure :
    (∀ (total : Nat) (acc : List Int) (part : List Char),
        normTok part ≠ [] → (normTok part).contains '-' = true →
        (resolveTok total (tokBefore (normTok part)) = none ∨
          resolveTok total (tokAfter (normTok part)) = none) →
        processPart total acc part = .error (.invalidInRange (normTok part).asString))
    ∧ (∀ (total : Nat) (acc : List Int) (part : List Char),
        normTok part ≠ [] → (normTok part).contains '-' = false →
        resolveTok total (normTok part) = none →
        processPart total acc part = .error (.invalidSingle (normTok part).asString))
    ∧ (∀ (total : Nat) (acc : List Int) (part : List Char) (v : Int),
        normTok part ≠ [] → (normTok part).contains '-' = false →
        resolveTok total (normTok part) = some v →
        ¬(1 ≤ v ∧ v ≤ (total : Int)) → (0 < total ∨ v ≠ 0) →
        processPart total acc part = .error
          (if 0 < total then .singleOutOfBounds (normTok part).asString total
           else .singleOutOfBoundsEmptyPdf (normTok part).asString))
    ∧ (∀ (total : Nat) (acc : List Int) (part : List Char) (a b : Int),
        normTok part ≠ [] → (normTok part).contains '-' = true →
        resolveTok total (tokBefore (normTok part)) = some a →
        resolveTok total (tokAfter (normTok part)) = some b →
        ¬(1 ≤ a ∧ a ≤ (total : Int) ∧ 1 ≤ b ∧ b ≤ (total : Int)) →
        (0 < total ∨ a ≠ 0 ∨ b ≠ 0) →
        processPart total acc part = .error
          (if 0 < total then .rangeOutOfBounds (normTok part).asString total
           else .rangeOutOfBoundsEmptyPdf (normTok part).asString))
    ∧ (∀ (e : String) (n : Nat),
        e.data ≠ [] → normTok e.data ≠ "all".data →
        (∃ p ∈ splitOnChar ',' e.data, errOf (processPart n [] p) ≠ none) →
        ∃ err, parse_page_range e n = .error err)
    ∧ parse_page_range "x" 5 = Except.error (.invalidSingle "x")
    ∧ parse_page_range "1,x,3" 5 = Except.error (.invalidSingle "x") := by
  refine ⟨?_, ?_, ?_, ?_, ?_, rfl, rfl⟩
  · intro total acc part hne hcon hbad
    unfold processPart processCore
    rw [if_neg hne, if_pos hcon]
    rcases hbad with h | h
    · cases h2 : resolveTok total (tokAfter (normTok part)) <;> simp only [h]
    · cases h1 : resolveTok total (tokBefore (normTok part)) <;> simp only [h]
  · intro total acc part hne hcon hbad
    unfold processPart processCore
    rw [if_neg hne, if_neg (by rw [hcon]; exact Bool.false_ne_true)]
    simp only [hbad]
  · intro total acc part v hne hcon hv hoob hne0
    unfold processPart processCore
    rw [if_neg hne, if_neg (by rw [hcon]; exact Bool.false_ne_true)]
    simp only [hv]
    unfold singleTermStep
    rw [if_pos hoob]
    by_cases ht : 0 < total
    · rw [if_neg (by omega : ¬(total = 0 ∧ v ≠ 0)), if_pos ht, if_pos ht]
    · have h0 : total = 0 := by omega
      have hvne : v ≠ 0 := by tauto
      rw [if_pos ⟨h0, hvne⟩, if_neg ht]
  · intro total acc part a b hne hcon ha hb hoob hne0
    unfold processPart processCore
    rw [if_neg hne, if_pos hcon]
    simp only [ha, hb]
    unfold rangeTermStep
    rw [if_pos hoob]
    by_cases ht : 0 < total
    · rw [if_neg (by omega : ¬(total = 0 ∧ (a ≠ 0 ∨ b ≠ 0))), if_pos ht, if_pos ht]
    · have h0 : total = 0 := by omega
      have hab : a ≠ 0 ∨ b ≠ 0 := by tauto
      rw [if_pos ⟨h0, hab⟩, if_neg ht]
  · intro e n hne hall hex
    unfold parse_page_range parsePartsOf
    rw [if_neg hne, if_neg hall]
    exact processParts_err_of_mem n _ [] hex

/-- Witness for `C6_eager_failure` at concrete inputs. -/
theorem C6_eager_failure_witness :
    processPart 5 [0] "9".data = Except.error (.singleOutOfBounds "9" 5) ∧
      ∃ err, parse_page_range "1,9" 5 = Except.error err := by
  constructor
  · have h := C6_eager_failure.2.2.1 5 [0] "9".data 9 (by decide) (by decide)
      (by decide) (by decide) (by decide)
    simpa using h
  · exact C6_eager_failure.2.2.2.2.1 "1,9" 5 (by decide) (by decide)
      ⟨"9".data, by decide, by decide⟩

/-- Counterexample to claim C6 as stated: on the empty document the term
`end` resolves to the 1-indexed value 0, which is out of the claimed bounds
`1 <= value <= total_pages`, yet the resolver does not fail — it returns the
value `[-1]`. -/
theorem C6_counterexample : parse_page_range "end" 0 = Except.ok [-1] := rfl

/-! ### Reversed ranges (claim C7) -/

theorem collectRange_comm (acc : List Int) (a b : Int) :
    collectRange acc a b = collectRange acc b a := by
  rcases lt_trichotomy a b with h | rfl | h
  · simp only [collectRange, if_neg (by omega : ¬a > b), if_pos (by omega : b > a)]
  · rfl
  · simp only [collectRange, if_pos (by omega : a > b), if_neg (by omega : ¬b > a)]

theorem rangeTermStep_comm (total : Nat) (p : List Char) (acc : List Int) (a b : Int) :
    rangeTermStep total p acc a b = rangeTermStep total p acc b a := by
  have hsym : (1 ≤ a ∧ a ≤ (total : Int) ∧ 1 ≤ b ∧ b ≤ (total : Int)) ↔
      (1 ≤ b ∧ b ≤ (total : Int) ∧ 1 ≤ a ∧ a ≤ (total : Int)) := by tauto
  have hsym2 : (total = 0 ∧ (a ≠ 0 ∨ b ≠ 0)) ↔ (total = 0 ∧ (b ≠ 0 ∨ a ≠ 0)) := by
    tauto
  unfold rangeTermStep
  rw [collectRange_comm acc a b]
  simp only [hsym, hsym2]

/-- Claim C7.  After endpoint resolution (`end` having become `total_pages`),
a hyphenated term treats `A-B` and `B-A` identically: the bounds check is
symmetric and reversed endpoints are swapped before the inclusive interval is
collected.  The spec's concrete cases follow by evaluation. -/
theorem C7_reversed_range_symmetry :
    (∀ (total : Nat) (p : List Char) (acc : List Int) (a b : Int),
        rangeTermStep total p acc a b = rangeTermStep total p acc b a)
    ∧ parse_page_range "5-1" 10 = parse_page_range "1-5" 10
    ∧ parse_page_range "1-5" 10 = Except.ok [0, 1, 2, 3, 4]
    ∧ parse_page_range "3-end" 5 = Except.ok [2, 3, 4] :=
  ⟨rangeTermStep_comm, rfl, rfl, rfl⟩

/-! ### Whitespace and case normalisation (claim C8) -/

theorem dropWhile_append_all {P : Char → Bool} :
    ∀ (a b : List Char), (∀ c ∈ a, P c = true) →
      List.dropWhile P (a ++ b) = List.dropWhile P b := by
  intro a
  induction a with
  | nil => intro b _; rfl
  | cons x xs ih =>
    intro b h
    rw [List.cons_append, List.dropWhile_cons, if_pos (h x (List.mem_cons_self x xs))]
    exact ih b (fun c hc => h c (List.mem_cons_of_mem x hc))

theorem dropWhile_append_split {P : Char → Bool} :
    ∀ (a b : List Char),
      List.dropWhile P (a ++ b) =
        if List.dropWhile P a = [] then List.dropWhile P b
        else List.dropWhile P a ++ b := by
  intro a
  induction a with
  | nil => intro b; simp
  | cons x xs ih =>
    intro b
    by_cases hx : P x = true
    · rw [List.cons_append, List.dropWhile_cons, if_pos hx, List.dropWhile_cons, if_pos hx, ih]
    · rw [List.cons_append, List.dropWhile_cons, if_neg hx, List.dropWhile_cons, if_neg hx]
      rw [if_neg (by simp)]
      rfl

theorem dropWhile_all_nil {P : Char → Bool} (a : List Char)
    (h : ∀ c ∈ a, P c = true) : List.dropWhile P a = [] := by
  have := dropWhile_append_all a [] h
  simpa using this

theorem pyStrip_ws_append (w p : List Char) (hw : ∀ c ∈ w, c.isWhitespace = true) :
    pyStrip (w ++ p) = pyStrip p := by
  unfold pyStrip dropLead
  rw [dropWhile_append_all w p hw]

theorem pyStrip_append_ws (p w : List Char) (hw : ∀ c ∈ w, c.isWhitespace = true) :
    pyStrip (p ++ w) = pyStrip p := by
  unfold pyStrip dropLead
  rw [dropWhile_append_split]
  by_cases h : List.dropWhile Char.isWhitespace p = []
  · rw [if_pos h, h, dropWhile_all_nil w hw]
  · rw [if_neg h, List.reverse_append]
    rw [dropWhile_append_all w.reverse _ (fun c hc => hw c (List.mem_reverse.mp hc))]

theorem pyStrip_pad (w1 w2 p : List Char)
    (h1 : ∀ c ∈ w1, c.isWhitespace = true) (h2 : ∀ c ∈ w2, c.isWhitespace = true) :
    pyStrip (w1 ++ p ++ w2) = pyStrip p := by
  rw [pyStrip_append_ws (w1 ++ p) w2 h2, pyStrip_ws_append w1 p h1]

theorem normTok_pad (w1 w2 p : List Char)
    (h1 : ∀ c ∈ w1, c.isWhitespace = true) (h2 : ∀ c ∈ w2, c.isWhitespace = true) :
    normTok (w1 ++ p ++ w2) = normTok p := by
  unfold normTok
  rw [pyStrip_pad w1 w2 p h1 h2]

theorem pyInt_pad (w1 w2 t : List Char)
    (h1 : ∀ c ∈ w1, c.isWhitespace = true) (h2 : ∀ c ∈ w2, c.isWhitespace = true) :
    pyInt (w1 ++ t ++ w2) = pyInt t := by
  unfold pyInt
  rw [pyStrip_pad w1 w2 t h1 h2]

theorem pyLowerCh_pyUpperCh (c : Char) : pyLowerCh (pyUpperCh c) = pyLowerCh c := by
  unfold pyUpperCh
  split <;> rfl

theorem isWhitespace_pyUpperCh (c : Char) :
    (pyUpperCh c).isWhitespace = c.isWhitespace := by
  unfold pyUpperCh
  split <;> rfl

theorem pyUpperCh_comma (c : Char) : pyUpperCh c = ',' ↔ c = ',' := by
  unfold pyUpperCh
  split <;> simp

theorem pyStrip_map_upper (l : List Char) :
    pyStrip (l.map pyUpperCh) = (pyStrip l).map pyUpperCh := by
  have hws : (Char.isWhitespace ∘ pyUpperCh) = Char.isWhitespace := by
    funext c; exact isWhitespace_pyUpperCh c
  unfold pyStrip dropLead
  rw [List.dropWhile_map, hws, ← List.map_reverse, List.dropWhile_map, hws,
    ← List.map_reverse]

theorem normTok_map_upper (l : List Char) : normTok (l.map pyUpperCh) = normTok l := by
  unfold normTok
  rw [pyStrip_map_upper, List.map_map]
  exact List.map_congr_left (fun c _ => pyLowerCh_pyUpperCh c)

theorem splitOnChar_ne_nil (c : Char) : ∀ (l : List Char), splitOnChar c l ≠ [] := by
  intro l
  induction l with
  | nil => simp [splitOnChar]
  | cons x xs ih =>
    unfold splitOnChar
    split
    · simp
    · cases hsp : splitOnChar c xs with
      | nil => exact absurd hsp ih
      | cons h t => simp

theorem splitOnChar_map_upper : ∀ (l : List Char),
    splitOnChar ',' (l.map pyUpperCh) = (splitOnChar ',' l).map (List.map pyUpperCh) := by
  intro l
  induction l with
  | nil => rfl
  | cons x xs ih =>
    rw [List.map_cons]
    unfold splitOnChar
    by_cases hx : x = ','
    · subst hx
      rw [if_pos (by rfl), if_pos rfl, ih]
      rfl
    · rw [if_neg (fun h => hx ((pyUpperCh_comma x).mp h)), if_neg hx, ih]
      cases hsp : splitOnChar ',' xs with
      | nil => exact absurd hsp (splitOnChar_ne_nil ',' xs)
      | cons h t => rfl

theorem processParts_congr (total : Nat) :
    ∀ (ps qs : List (List Char)) (acc : List Int),
      List.Forall₂ (fun p q => normTok p = normTok q) ps qs →
      processParts total ps acc = processParts total qs acc := by
  intro ps
  induction ps with
  | nil =>
    intro qs acc h
    cases h
    rfl
  | cons p ps ih =>
    intro qs acc h
    cases h
    rename_i q qs hpq htail
    unfold processParts
    have hstep : processPart total acc p = processPart total acc q := by
      unfold processPart
      rw [hpq]
    rw [hstep]
    cases hq : processPart total acc q with
    | error e => rfl
    | ok acc2 => exact ih _ _ htail

theorem parsePartsOf_map_upper (l : List Char) (n : Nat) :
    parsePartsOf (l.map pyUpperCh) n = parsePartsOf l n := by
  unfold parsePartsOf
  by_cases h0 : l = []
  · subst h0; rfl
  · rw [if_neg (by simpa using h0), if_neg h0, normTok_map_upper]
    by_cases hall : normTok l = "all".data
    · rw [if_pos hall, if_pos hall]
    · rw [if_neg hall, if_neg hall, splitOnChar_map_upper]
      apply processParts_congr
      clear h0 hall
      induction splitOnChar ',' l with
      | nil => exact List.Forall₂.nil
      | cons p ps ih => exact List.Forall₂.cons (normTok_map_upper p) ih

/-- Claim C8, amended.  Resolution is tolerant of whitespace around terms and
around integer tokens, and is case-insensitive under ASCII upper-casing: the
normalisation erases both; an upper-cased expression resolves exactly like the
original; any spelling of `all` surrounded by whitespace resolves to the whole
document.  The single exception, forced by the counterexample, is whitespace
attached to an `end` endpoint inside a hyphenated term: the endpoint is
compared verbatim against `end` before integer parsing, and `int()` then
rejects it, so `"1 - end"` fails although `"1-end"` succeeds. -/
theorem C8_case_whitespace_tolerance :
    (∀ (s : String) (n : Nat), normTok s.data = "all".data →
        parse_page_range s n = .ok ((List.range n).map (fun (k : Nat) => (k : Int))))
    ∧ (∀ (w1 w2 p : List Char), (∀ c ∈ w1, c.isWhitespace = true) →
        (∀ c ∈ w2, c.isWhitespace = true) → normTok (w1 ++ p ++ w2) = normTok p)
    ∧ (∀ (l : List Char) (n : Nat), parsePartsOf (l.map pyUpperCh) n = parsePartsOf l n)
    ∧ (∀ (w1 w2 t : List Char), (∀ c ∈ w1, c.isWhitespace = true) →
        (∀ c ∈ w2, c.isWhitespace = true) → pyInt (w1 ++ t ++ w2) = pyInt t)
    ∧ (∀ (total : Nat) (ps qs : List (List Char)) (acc : List Int),
        List.Forall₂ (fun p q => normTok p = normTok q) ps qs →
        processParts total ps acc = processParts total qs acc)
    ∧ parse_page_range " All " 3 = Except.ok [0, 1, 2]
    ∧ parse_page_range " 3 , 4" 5 = parse_page_range "3,4" 5
    ∧ parse_page_range "1 - 5" 10 = parse_page_range "1-5" 10
    ∧ parse_page_range "END" 5 = parse_page_range "end" 5 := by
  refine ⟨?_, normTok_pad, ?_, pyInt_pad, processParts_congr, rfl, rfl, rfl, rfl⟩
  · intro s n hall
    unfold parse_page_range parsePartsOf
    have hne : s.data ≠ [] := by
      intro h0
      rw [h0] at hall
      exact absurd hall (by decide)
    rw [if_neg hne, if_pos hall]
  · exact parsePartsOf_map_upper

/-- Witness for `C8_case_whitespace_tolerance` at concrete inputs. -/
theorem C8_case_whitespace_tolerance_witness :
    parse_page_range " ALL " 4 = Except.ok ((List.range 4).map (fun (k : Nat) => (k : Int)))
    ∧ normTok (" ".data ++ "7".data ++ " ".data) = normTok "7".data
    ∧ pyInt (" ".data ++ "23".data ++ "  ".data) = pyInt "23".data
    ∧ processParts 9 ["1".data] [] = processParts 9 [" 1 ".data] [] := by
  refine ⟨?_, ?_, ?_, ?_⟩
  · exact C8_case_whitespace_tolerance.1 " ALL " 4 (by decide)
  · exact C8_case_whitespace_tolerance.2.1 " ".data " ".data "7".data
      (by decide) (by decide)
  · exact C8_case_whitespace_tolerance.2.2.2.1 " ".data "  ".data "23".data
      (by decide) (by decide)
  · exact C8_case_whitespace_tolerance.2.2.2.2.1 9 ["1".data] [" 1 ".data] []
      (List.Forall₂.cons (by decide) List.Forall₂.nil)

/-- Counterexample to claim C8 as stated: padding the `end` token of a
hyphenated term with whitespace changes the behaviour — `"1 - end"` fails
with a malformed-token error while the unpadded `"1-end"` succeeds. -/
theorem C8_counterexample :
    parse_page_range "1 - end" 5 = Except.error (.invalidInRange "1 - end") ∧
      parse_page_range "1-end" 5 = Except.ok [0, 1, 2, 3, 4] :=
  ⟨rfl, rfl⟩

/-! ### The centered crop (claim C9) -/

/-- Claim C9, amended.  Per page the chosen crop dimensions are
`min(target, original)` per axis, and the crop box spans
`[(o-c)/2, (o-c)/2 + c]` on each axis in absolute coordinates — i.e. as if the
page's box were anchored at the origin.  When the media box is anchored at the
origin this leaves an `(original - chosen)/2` margin on each side, and a page
anchored at the origin that is smaller than the target on *both* axes keeps
its box unchanged.  (For media boxes not anchored at the origin, and for pages
smaller than the target on only one axis, the original claim fails — see the
counterexample.) -/
theorem C9_crop_box_formula :
    (∀ (twI thI : ℚ) (pages : List Rect),
        crop_pdf_pages_centered twI thI pages =
          pages.map (cropPageCentered (twI * POINTS_PER_INCH) (thI * POINTS_PER_INCH)))
    ∧ (∀ (tw th : ℚ) (m : Rect),
        (cropPageCentered tw th m).width = min tw m.width
        ∧ (cropPageCentered tw th m).height = min th m.height
        ∧ (cropPageCentered tw th m).llx = (m.width - min tw m.width) / 2
        ∧ (cropPageCentered tw th m).lly = (m.height - min th m.height) / 2
        ∧ (cropPageCentered tw th m).urx = (m.width - min tw m.width) / 2 + min tw m.width
        ∧ (cropPageCentered tw th m).ury = (m.height - min th m.height) / 2 + min th m.height)
    ∧ (∀ (tw th : ℚ) (m : Rect), m.llx = 0 → m.lly = 0 →
        (cropPageCentered tw th m).llx - m.llx =
            (m.width - (cropPageCentered tw th m).width) / 2
        ∧ m.urx - (cropPageCentered tw th m).urx =
            (m.width - (cropPageCentered tw th m).width) / 2
        ∧ (cropPageCentered tw th m).lly - m.lly =
            (m.height - (cropPageCentered tw th m).height) / 2
        ∧ m.ury - (cropPageCentered tw th m).ury =
            (m.height - (cropPageCentered tw th m).height) / 2)
    ∧ (∀ (tw th : ℚ) (m : Rect), m.llx = 0 → m.lly = 0 →
        m.width ≤ tw → m.height ≤ th → cropPageCentered tw th m = m) := by
  refine ⟨fun _ _ _ => rfl, ?_, ?_, ?_⟩
  · intro tw th m
    refine ⟨?_, ?_, ?_, ?_, ?_, ?_⟩ <;>
      simp only [cropPageCentered, Rect.width, Rect.height] <;> ring
  · intro tw th m h1 h2
    refine ⟨?_, ?_, ?_, ?_⟩ <;>
      simp only [cropPageCentered, Rect.width, Rect.height, h1, h2] <;> ring
  · intro tw th m h1 h2 hw hh
    have hcw : min tw m.width = m.width := min_eq_right hw
    have hch : min th m.height = m.height := min_eq_right hh
    simp only [cropPageCentered, Rect.width, Rect.height] at hcw hch ⊢
    rw [hcw, hch]
    cases m
    simp only [Rect.mk.injEq]
    simp only [Rect.llx] at h1
    simp only [Rect.lly] at h2
    subst h1 h2
    norm_num

/-- Witness for `C9_crop_box_formula` at a concrete page. -/
theorem C9_crop_box_formula_witness :
    cropPageCentered 200 300 ⟨0, 0, 100, 50⟩ = ⟨0, 0, 100, 50⟩ :=
  C9_crop_box_formula.2.2.2 200 300 ⟨0, 0, 100, 50⟩ rfl rfl
    (by norm_num [Rect.width]) (by norm_num [Rect.height])

/-- Counterexample to claim C9 as stated: a page smaller than the target on
one axis only is still cropped on the other axis (not left at its original
box), and for a media box not anchored at the origin the crop box is not
positioned `(original - chosen)/2` away from the box's own edges. -/
theorem C9_counterexample :
    cropPageCentered 648 432 ⟨0, 0, 100, 800⟩ = ⟨0, 184, 100, 616⟩
    ∧ (⟨0, 184, 100, 616⟩ : Rect) ≠ ⟨0, 0, 100, 800⟩
    ∧ cropPageCentered 72 72 ⟨100, 100, 200, 200⟩ = ⟨14, 14, 86, 86⟩
    ∧ (⟨14, 14, 86, 86⟩ : Rect).llx - (⟨100, 100, 200, 200⟩ : Rect).llx ≠
        ((⟨100, 100, 200, 200⟩ : Rect).width - (⟨14, 14, 86, 86⟩ : Rect).width) / 2 := by
  refine ⟨?_, ?_, ?_, ?_⟩
  · norm_num [cropPageCentered, Rect.width, Rect.height, min_def]
  · intro h
    rw [Rect.mk.injEq] at h
    norm_num at h
  · norm_num [cropPageCentered, Rect.width, Rect.height, min_def]
  · norm_num [Rect.width]

/-! ### Overwrite guards and write mechanisms (claim C2) -/

theorem extract_samePath_refusal (fs : FS) (i r : String) (ov : Bool) :
    extract_pdf_pages fs i i r ov = (fs, [.errSamePath]) := by
  unfold extract_pdf_pages
  rw [if_pos rfl]

theorem cut_conflict_guard (fs : FS) (i r : String) (pages : List Page)
    (hin : lookupFS fs i = some (.pdf pages)) :
    cut_pdf_pages fs i i r false = (fs, [.readPdf i, .errDestConflict]) := by
  unfold cut_pdf_pages
  simp only [hin]
  simp

theorem cut_inplace_temp_rename (fs : FS) (i r : String) (pages : List Page)
    (idxs : List Int)
    (hin : lookupFS fs i = some (.pdf pages)) (hne : pages ≠ [])
    (hparse : parse_page_range r pages.length = .ok idxs) (hidx : idxs ≠ [])
    (hk0 : (keptPages pages idxs).length ≠ 0)
    (hkt : (keptPages pages idxs).length ≠ pages.length) :
    cut_pdf_pages fs i i r true =
      (setFS fs i (.pdf (keptPages pages idxs)),
       [.readPdf i, .writeTemp (pyTempDir i), .renameOver i, .infoDone]) := by
  unfold cut_pdf_pages
  simp only [hin]
  rw [if_neg (by simp), if_neg (by simp),
    if_neg (fun h => hne (List.length_eq_zero.mp h))]
  simp only [hparse]
  rw [if_neg hidx, if_neg hkt, if_neg hk0, if_pos trivial]
  rfl

theorem paste_conflict_guard (fs : FS) (t s o : String) (p : Int)
    (r : Option String) (hor : o = t ∨ o = s) :
    paste_pdf_pages fs t s o p r false = (fs, [.errDestConflict]) := by
  unfold paste_pdf_pages
  rw [if_pos ⟨hor, rfl⟩]

theorem paste_overwrite_temp_rename (fs : FS) (t s o : String) (p : Int)
    (T S : List Page) (hor : o = t ∨ o = s)
    (hT : lookupFS fs t = some (.pdf T)) (hS : lookupFS fs s = some (.pdf S))
    (hSne : S ≠ []) (hp1 : 1 ≤ p) (hp2 : p ≤ (T.length : Int) + 1) :
    paste_pdf_pages fs t s o p none true =
      (setFS fs o (.pdf (T.take (p - 1).toNat ++ S ++ T.drop (p - 1).toNat)),
       [.readPdf t, .readPdf s, .readPdf t, .writeTemp (pyTempDir o), .renameOver o,
        .infoDone]) := by
  unfold paste_pdf_pages
  rw [if_neg (by simp), if_neg (by simp)]
  simp only [hT, hS]
  rw [if_neg (not_not_intro ⟨hp1, hp2⟩)]
  rw [if_neg (by decide), if_neg (fun h => hSne (List.length_eq_zero.mp h))]
  simp [hor]

theorem merge_conflict_guard (fs : FS) (inputs : List String) (o : String)
    (h0 : inputs ≠ []) (hmem : o ∈ inputs) :
    merge_pdf_files fs inputs o false = (fs, [.errDestConflict]) := by
  unfold merge_pdf_files
  rw [if_neg h0, if_pos ⟨hmem, rfl⟩]

theorem merge_direct_write (fs : FS) (inputs : List String) (o : String)
    (h0 : inputs ≠ []) (hcnt : (mergeScan fs inputs).2.1 ≠ 0) :
    merge_pdf_files fs inputs o true =
      (setFS fs o (.pdf (mergeScan fs inputs).1),
       (mergeScan fs inputs).2.2 ++ [.writeDirect o, .infoDone]) := by
  unfold merge_pdf_files
  rw [if_neg h0, if_neg (by simp), if_neg (by simp), if_neg hcnt]

/-- Claim C2, amended.  Any operation whose output path equals an input path
fails with the destination-conflict refusal when overwrite is off.  With
overwrite on: `extract` still refuses outright (lines 82-84 check path
equality before the overwrite flag); `cut` and `paste` produce the correct
result and write it through a temporary file in the destination's directory
followed by a rename over the destination, with the aliased input read before
the write; `merge` produces the correct result and reads every input during
the scan before writing, but then opens the output path directly (line 422) —
it does not use a temporary file. -/
theorem C2_overwrite_guard_and_write_mechanism :
    (∀ (fs : FS) (i r : String) (ov : Bool),
        extract_pdf_pages fs i i r ov = (fs, [.errSamePath]))
    ∧ (∀ (fs : FS) (i r : String) (pages : List Page),
        lookupFS fs i = some (.pdf pages) →
        cut_pdf_pages fs i i r false = (fs, [.readPdf i, .errDestConflict]))
    ∧ (∀ (fs : FS) (i r : String) (pages : List Page) (idxs : List Int),
        lookupFS fs i = some (.pdf pages) → pages ≠ [] →
        parse_page_range r pages.length = .ok idxs → idxs ≠ [] →
        (keptPages pages idxs).length ≠ 0 →
        (keptPages pages idxs).length ≠ pages.length →
        cut_pdf_pages fs i i r true =
          (setFS fs i (.pdf (keptPages pages idxs)),
           [.readPdf i, .writeTemp (pyTempDir i), .renameOver i, .infoDone]))
    ∧ (∀ (fs : FS) (t s o : String) (p : Int) (r : Option String),
        (o = t ∨ o = s) →
        paste_pdf_pages fs t s o p r false = (fs, [.errDestConflict]))
    ∧ (∀ (fs : FS) (t s o : String) (p : Int) (T S : List Page),
        (o = t ∨ o = s) →
        lookupFS fs t = some (.pdf T) → lookupFS fs s = some (.pdf S) →
        S ≠ [] → 1 ≤ p → p ≤ (T.length : Int) + 1 →
        paste_pdf_pages fs t s o p none true =
          (setFS fs o (.pdf (T.take (p - 1).toNat ++ S ++ T.drop (p - 1).toNat)),
           [.readPdf t, .readPdf s, .readPdf t, .writeTemp (pyTempDir o),
            .renameOver o, .infoDone]))
    ∧ (∀ (fs : FS) (inputs : List String) (o : String),
        inputs ≠ [] → o ∈ inputs →
        merge_pdf_files fs inputs o false = (fs, [.errDestConflict]))
    ∧ (∀ (fs : FS) (inputs : List String) (o : String),
        inputs ≠ [] → (mergeScan fs inputs).2.1 ≠ 0 →
        merge_pdf_files fs inputs o true =
          (setFS fs o (.pdf (mergeScan fs inputs).1),
           (mergeScan fs inputs).2.2 ++ [.writeDirect o, .infoDone])) :=
  ⟨extract_samePath_refusal, cut_conflict_guard, cut_inplace_temp_rename,
    paste_conflict_guard, paste_overwrite_temp_rename, merge_conflict_guard,
    merge_direct_write⟩

/-- Witness for `C2_overwrite_guard_and_write_mechanism` at concrete inputs. -/
theorem C2_overwrite_guard_and_write_mechanism_witness :
    cut_pdf_pages [("d/a", .pdf ["p1", "p2", "p3"])] "d/a" "d/a" "2" true =
      (setFS [("d/a", .pdf ["p1", "p2", "p3"])] "d/a"
        (.pdf (keptPages ["p1", "p2", "p3"] [1])),
       [.readPdf "d/a", .writeTemp (pyTempDir "d/a"), .renameOver "d/a", .infoDone])
    ∧ paste_pdf_pages [("t", .pdf ["t1"]), ("s", .pdf ["s1"])] "t" "s" "t" 1 none true =
      (setFS [("t", .pdf ["t1"]), ("s", .pdf ["s1"])] "t"
        (.pdf (List.take ((1 : Int) - 1).toNat ["t1"] ++ ["s1"] ++
          List.drop ((1 : Int) - 1).toNat ["t1"])),
       [.readPdf "t", .readPdf "s", .readPdf "t", .writeTemp (pyTempDir "t"),
        .renameOver "t", .infoDone]) := by
  constructor
  · exact C2_overwrite_guard_and_write_mechanism.2.2.1 _ "d/a" "2" ["p1", "p2", "p3"]
      [1] rfl (by decide) rfl (by decide) (by decide) (by decide)
  · exact C2_overwrite_guard_and_write_mechanism.2.2.2.2.1 _ "t" "s" "t" 1 ["t1"]
      ["s1"] (Or.inl rfl) rfl rfl (by decide) (by decide) (by decide)

/-- Counterexample to claim C2 as stated: with overwrite enabled and the
output equal to the input, `extract` does not succeed — it refuses outright;
and `merge` does not write through a temporary file plus rename — it opens
the aliased output path directly. -/
theorem C2_counterexample :
    extract_pdf_pages [("a.pdf", .pdf ["p1"])] "a.pdf" "a.pdf" "all" true
        = ([("a.pdf", .pdf ["p1"])], [.errSamePath])
    ∧ (merge_pdf_files [("a.pdf", .pdf ["p1"])] ["a.pdf"] "a.pdf" true).2
        = [.readPdf "a.pdf", .writeDirect "a.pdf", .infoDone]
    ∧ Ev.writeDirect "a.pdf" ∈
        (merge_pdf_files [("a.pdf", .pdf ["p1"])] ["a.pdf"] "a.pdf" true).2
    ∧ Ev.renameOver "a.pdf" ∉
        (merge_pdf_files [("a.pdf", .pdf ["p1"])] ["a.pdf"] "a.pdf" true).2 := by
  refine ⟨rfl, rfl, ?_, ?_⟩ <;> decide

/-! ### Paste position and result order (claim C3) -/

theorem paste_oob (fs : FS) (t s o : String) (p : Int) (T S : List Page)
    (hT : lookupFS fs t = some (.pdf T)) (hS : lookupFS fs s = some (.pdf S))
    (hoob : ¬(1 ≤ p ∧ p ≤ (T.length : Int) + 1)) :
    paste_pdf_pages fs t s o p none true =
      (fs, [.readPdf t, .readPdf s, .errOutOfBounds p T.length]) := by
  unfold paste_pdf_pages
  rw [if_neg (by simp), if_neg (by simp)]
  simp only [hT, hS]
  rw [if_pos hoob]

theorem paste_result_norange (fs : FS) (t s o : String) (p : Int) (T S : List Page)
    (hT : lookupFS fs t = some (.pdf T)) (hS : lookupFS fs s = some (.pdf S))
    (hp1 : 1 ≤ p) (hp2 : p ≤ (T.length : Int) + 1) :
    (paste_pdf_pages fs t s o p none true).1 =
      setFS fs o (.pdf (T.take (p - 1).toNat ++ S ++ T.drop (p - 1).toNat)) := by
  unfold paste_pdf_pages
  rw [if_neg (by simp), if_neg (by simp)]
  simp only [hT, hS]
  rw [if_neg (not_not_intro ⟨hp1, hp2⟩), if_neg (by decide)]
  by_cases hS0 : S.length = 0
  · have hSe : S = [] := List.length_eq_zero.mp hS0
    subst hSe
    by_cases ho : o = t ∨ o = s <;> simp [ho]
  · rw [if_neg hS0]
    by_cases ho : o = t ∨ o = s <;> simp [ho]

theorem paste_result_ranged (fs : FS) (t s o : String) (p : Int) (T S : List Page)
    (hT : lookupFS fs t = some (.pdf T)) (hS : lookupFS fs s = some (.pdf S))
    (hSne : S ≠ []) (r : String) (idxs : List Int) (hr : r ≠ "")
    (hparse : parse_page_range r S.length = .ok idxs) (hidx : idxs ≠ [])
    (hp1 : 1 ≤ p) (hp2 : p ≤ (T.length : Int) + 1) :
    (paste_pdf_pages fs t s o p (some r) true).1 =
      setFS fs o (.pdf (T.take (p - 1).toNat ++
        idxs.map (fun i => S.getD i.toNat "") ++ T.drop (p - 1).toNat)) := by
  unfold paste_pdf_pages
  rw [if_neg (by simp), if_neg (by simp)]
  simp only [hT, hS]
  rw [if_neg (not_not_intro ⟨hp1, hp2⟩)]
  rw [if_pos (show (!(r == "")) = true by simp [hr])]
  rw [if_neg (fun h => hSne (List.length_eq_zero.mp h))]
  simp only [Option.getD_some, hparse]
  cases idxs with
  | nil => exact absurd rfl hidx
  | cons a as =>
    by_cases ho : o = t ∨ o = s <;> simp [ho]

/-- Claim C3.  `paste` fails with the out-of-bounds error unless
`1 <= insert_before_page <= target page count + 1`; when in bounds the output
document is target pages `[0, p-1)`, then the selected source pages (all of
the source, or the resolved ascending selection of a given range against a
non-empty source), then target pages `[p-1, t)`; `p = 1` prepends the
selection before the whole target and `p = t + 1` appends it after the last
target page. -/
theorem C3_paste_position_and_order :
    (∀ (fs : FS) (t s o : String) (p : Int) (T S : List Page),
        lookupFS fs t = some (.pdf T) → lookupFS fs s = some (.pdf S) →
        ¬(1 ≤ p ∧ p ≤ (T.length : Int) + 1) →
        paste_pdf_pages fs t s o p none true =
          (fs, [.readPdf t, .readPdf s, .errOutOfBounds p T.length]))
    ∧ (∀ (fs : FS) (t s o : String) (p : Int) (T S : List Page),
        lookupFS fs t = some (.pdf T) → lookupFS fs s = some (.pdf S) →
        1 ≤ p → p ≤ (T.length : Int) + 1 →
        (paste_pdf_pages fs t s o p none true).1 =
          setFS fs o (.pdf (T.take (p - 1).toNat ++ S ++ T.drop (p - 1).toNat)))
    ∧ (∀ (fs : FS) (t s o : String) (p : Int) (T S : List Page) (r : String)
          (idxs : List Int),
        lookupFS fs t = some (.pdf T) → lookupFS fs s = some (.pdf S) →
        S ≠ [] → r ≠ "" → parse_page_range r S.length = .ok idxs → idxs ≠ [] →
        1 ≤ p → p ≤ (T.length : Int) + 1 →
        (paste_pdf_pages fs t s o p (some r) true).1 =
          setFS fs o (.pdf (T.take (p - 1).toNat ++
            idxs.map (fun i => S.getD i.toNat "") ++ T.drop (p - 1).toNat)))
    ∧ (∀ (fs : FS) (t s o : String) (T S : List Page),
        lookupFS fs t = some (.pdf T) → lookupFS fs s = some (.pdf S) →
        (paste_pdf_pages fs t s o 1 none true).1 = setFS fs o (.pdf (S ++ T)))
    ∧ (∀ (fs : FS) (t s o : String) (T S : List Page),
        lookupFS fs t = some (.pdf T) → lookupFS fs s = some (.pdf S) →
        (paste_pdf_pages fs t s o ((T.length : Int) + 1) none true).1 =
          setFS fs o (.pdf (T ++ S))) := by
  refine ⟨?_, ?_, ?_, ?_, ?_⟩
  · intro fs t s o p T S hT hS hoob
    exact paste_oob fs t s o p T S hT hS hoob
  · intro fs t s o p T S hT hS hp1 hp2
    exact paste_result_norange fs t s o p T S hT hS hp1 hp2
  · intro fs t s o p T S r idxs hT hS hSne hr hparse hidx hp1 hp2
    exact paste_result_ranged fs t s o p T S hT hS hSne r idxs hr hparse hidx hp1 hp2
  · intro fs t s o T S hT hS
    have h := paste_result_norange fs t s o 1 T S hT hS (by omega) (by omega)
    simpa using h
  · intro fs t s o T S hT hS
    have h := paste_result_norange fs t s o ((T.length : Int) + 1) T S hT hS
      (by omega) (by omega)
    rw [show (((T.length : Int) + 1) - 1).toNat = T.length by omega] at h
    simpa [List.take_length, List.drop_length] using h

/-- Witness for `C3_paste_position_and_order` at concrete inputs. -/
theorem C3_paste_position_and_order_witness :
    paste_pdf_pages [("t", .pdf ["t1", "t2"]), ("s", .pdf ["s1"])] "t" "s" "o" 4 none true =
      ([("t", .pdf ["t1", "t2"]), ("s", .pdf ["s1"])],
       [.readPdf "t", .readPdf "s", .errOutOfBounds 4 2])
    ∧ (paste_pdf_pages [("t", .pdf ["t1", "t2"]), ("s", .pdf ["s1"])] "t" "s" "o" 2 none true).1 =
        setFS [("t", .pdf ["t1", "t2"]), ("s", .pdf ["s1"])] "o"
          (.pdf (List.take ((2 : Int) - 1).toNat ["t1", "t2"] ++ ["s1"] ++
            List.drop ((2 : Int) - 1).toNat ["t1", "t2"])) := by
  constructor
  · exact C3_paste_position_and_order.1 _ "t" "s" "o" 4 ["t1", "t2"] ["s1"]
      rfl rfl (by decide)
  · exact C3_paste_position_and_order.2.1 _ "t" "s" "o" 2 ["t1", "t2"] ["s1"]
      rfl rfl (by decide) (by decide)

/-! ### Empty and invalid source ranges in paste (claim C4) -/

theorem paste_empty_source_warns (fs : FS) (t s o : String) (p : Int)
    (T : List Page) (r : String)
    (hT : lookupFS fs t = some (.pdf T)) (hS : lookupFS fs s = some (.pdf []))
    (hr : r ≠ "") (hp1 : 1 ≤ p) (hp2 : p ≤ (T.length : Int) + 1) :
    (paste_pdf_pages fs t s o p (some r) true).1 = setFS fs o (.pdf T)
    ∧ Ev.warnEmptySource ∈ (paste_pdf_pages fs t s o p (some r) true).2 := by
  unfold paste_pdf_pages
  rw [if_neg (by simp), if_neg (by simp)]
  simp only [hT, hS, List.length_nil]
  rw [if_neg (not_not_intro ⟨hp1, hp2⟩)]
  rw [if_pos (show (!(r == "")) = true by simp [hr])]
  rw [if_pos trivial]
  constructor
  · by_cases ho : o = t ∨ o = s <;> simp [ho, List.take_append_drop]
  · by_cases ho : o = t ∨ o = s <;> simp [ho]

theorem paste_empty_selection_warns (fs : FS) (t s o : String) (p : Int)
    (T S : List Page) (r : String)
    (hT : lookupFS fs t = some (.pdf T)) (hS : lookupFS fs s = some (.pdf S))
    (hSne : S ≠ []) (hr : r ≠ "")
    (hparse : parse_page_range r S.length = .ok [])
    (hp1 : 1 ≤ p) (hp2 : p ≤ (T.length : Int) + 1) :
    (paste_pdf_pages fs t s o p (some r) true).1 = setFS fs o (.pdf T)
    ∧ Ev.warnEmptyOrInvalidRange ∈ (paste_pdf_pages fs t s o p (some r) true).2 := by
  unfold paste_pdf_pages
  rw [if_neg (by simp), if_neg (by simp)]
  simp only [hT, hS]
  rw [if_neg (not_not_intro ⟨hp1, hp2⟩)]
  rw [if_pos (show (!(r == "")) = true by simp [hr])]
  rw [if_neg (fun h => hSne (List.length_eq_zero.mp h))]
  simp only [Option.getD_some, hparse]
  constructor
  · by_cases ho : o = t ∨ o = s <;> simp [ho, List.take_append_drop]
  · by_cases ho : o = t ∨ o = s <;> simp [ho]

theorem paste_range_error_aborts (fs : FS) (t s o : String) (p : Int)
    (T S : List Page) (r : String) (err : RangeError)
    (hT : lookupFS fs t = some (.pdf T)) (hS : lookupFS fs s = some (.pdf S))
    (hSne : S ≠ []) (hr : r ≠ "")
    (hparse : parse_page_range r S.length = .error err)
    (hp1 : 1 ≤ p) (hp2 : p ≤ (T.length : Int) + 1) :
    paste_pdf_pages fs t s o p (some r) true =
      (fs, [.readPdf t, .readPdf s, .errRange err]) := by
  unfold paste_pdf_pages
  rw [if_neg (by simp), if_neg (by simp)]
  simp only [hT, hS]
  rw [if_neg (not_not_intro ⟨hp1, hp2⟩)]
  rw [if_pos (show (!(r == "")) = true by simp [hr])]
  rw [if_neg (fun h => hSne (List.length_eq_zero.mp h))]
  simp only [Option.getD_some, hparse]

/-- Claim C4, amended.  A source range that *resolves* to the empty selection
(only empty terms), or any range given against a zero-page source, degrades to
"insert nothing": a warning is logged and the output, consisting of exactly
the target's pages, is still produced.  But a range on which the resolver
*raises* — a malformed token or an out-of-bounds term — propagates to the
`except ValueError` handler (line 294): the whole operation fails with an
error and no output is written. -/
theorem C4_empty_selection_degrades :
    (∀ (fs : FS) (t s o : String) (p : Int) (T : List Page) (r : String),
        lookupFS fs t = some (.pdf T) → lookupFS fs s = some (.pdf []) →
        r ≠ "" → 1 ≤ p → p ≤ (T.length : Int) + 1 →
        (paste_pdf_pages fs t s o p (some r) true).1 = setFS fs o (.pdf T)
        ∧ Ev.warnEmptySource ∈ (paste_pdf_pages fs t s o p (some r) true).2)
    ∧ (∀ (fs : FS) (t s o : String) (p : Int) (T S : List Page) (r : String),
        lookupFS fs t = some (.pdf T) → lookupFS fs s = some (.pdf S) →
        S ≠ [] → r ≠ "" → parse_page_range r S.length = .ok [] →
        1 ≤ p → p ≤ (T.length : Int) + 1 →
        (paste_pdf_pages fs t s o p (some r) true).1 = setFS fs o (.pdf T)
        ∧ Ev.warnEmptyOrInvalidRange ∈ (paste_pdf_pages fs t s o p (some r) true).2)
    ∧ (∀ (fs : FS) (t s o : String) (p : Int) (T S : List Page) (r : String)
          (err : RangeError),
        lookupFS fs t = some (.pdf T) → lookupFS fs s = some (.pdf S) →
        S ≠ [] → r ≠ "" → parse_page_range r S.length = .error err →
        1 ≤ p → p ≤ (T.length : Int) + 1 →
        paste_pdf_pages fs t s o p (some r) true =
          (fs, [.readPdf t, .readPdf s, .errRange err])) := by
  refine ⟨?_, ?_, ?_⟩
  · intro fs t s o p T r hT hS hr hp1 hp2
    exact paste_empty_source_warns fs t s o p T r hT hS hr hp1 hp2
  · intro fs t s o p T S r hT hS hSne hr hparse hp1 hp2
    exact paste_empty_selection_warns fs t s o p T S r hT hS hSne hr hparse hp1 hp2
  · intro fs t s o p T S r err hT hS hSne hr hparse hp1 hp2
    exact paste_range_error_aborts fs t s o p T S r err hT hS hSne hr hparse hp1 hp2

/-- Witness for `C4_empty_selection_degrades` at concrete inputs. -/
theorem C4_empty_selection_degrades_witness :
    (paste_pdf_pages [("t", .pdf ["t1", "t2"]), ("s", .pdf ["s1"])]
        "t" "s" "o" 1 (some ",") true).1 =
      setFS [("t", .pdf ["t1", "t2"]), ("s", .pdf ["s1"])] "o" (.pdf ["t1", "t2"])
    ∧ Ev.warnEmptyOrInvalidRange ∈
        (paste_pdf_pages [("t", .pdf ["t1", "t2"]), ("s", .pdf ["s1"])]
          "t" "s" "o" 1 (some ",") true).2 :=
  C4_empty_selection_degrades.2.1 _ "t" "s" "o" 1 ["t1", "t2"] ["s1"] ","
    rfl rfl (by decide) (by decide) rfl (by decide) (by decide)

/-- Counterexample to claim C4 as stated: a source range that is fully
invalid against the source's page count (here `"5"` against a 1-page source)
does not degrade to "insert nothing" — the operation aborts with a range
error and writes no output at all. -/
theorem C4_counterexample :
    paste_pdf_pages [("t", .pdf ["t1", "t2"]), ("s", .pdf ["s1"])]
        "t" "s" "o" 1 (some "5") false
      = ([("t", .pdf ["t1", "t2"]), ("s", .pdf ["s1"])],
         [.readPdf "t", .readPdf "s", .errRange (.singleOutOfBounds "5" 1)])
    ∧ lookupFS (paste_pdf_pages [("t", .pdf ["t1", "t2"]), ("s", .pdf ["s1"])]
        "t" "s" "o" 1 (some "5") false).1 "o" = none :=
  ⟨rfl, rfl⟩

/-! ### Merge skipping policy (claim C5) -/

theorem mergeScan_go (fs : FS) : ∀ (inputs : List String) (acc : List Page × Nat × List Ev),
    inputs.foldl (mergeStep fs) acc =
      (acc.1 ++ (mergeKept fs inputs).flatten,
       acc.2.1 + (mergeKept fs inputs).length,
       acc.2.2 ++ mergeEvs fs inputs) := by
  intro inputs
  induction inputs with
  | nil => intro acc; simp [mergeKept, mergeEvs]
  | cons p ps ih =>
    intro acc
    rw [List.foldl_cons, ih]
    cases hl : lookupFS fs p with
    | none =>
      simp [mergeStep, mergeKept, mergeEvs, mergeEvsOf, hl, List.filterMap_cons]
    | some d =>
      cases d with
      | blank => simp [mergeStep, mergeKept, mergeEvs, mergeEvsOf, hl, List.filterMap_cons]
      | corrupt => simp [mergeStep, mergeKept, mergeEvs, mergeEvsOf, hl, List.filterMap_cons]
      | pdf pages =>
        by_cases hp : pages = []
        · simp [mergeStep, mergeKept, mergeEvs, mergeEvsOf, hl, hp, List.filterMap_cons]
        · simp only [mergeStep, mergeKept, mergeEvs, mergeEvsOf, hl, List.filterMap_cons,
            List.map_cons, List.flatten_cons, List.isEmpty_iff, if_neg hp, List.length_cons,
            Prod.mk.injEq]
          refine ⟨by simp, by omega, by simp⟩

theorem mergeScan_spec (fs : FS) (inputs : List String) :
    mergeScan fs inputs =
      ((mergeKept fs inputs).flatten, (mergeKept fs inputs).length,
       mergeEvs fs inputs) := by
  unfold mergeScan
  rw [mergeScan_go]
  simp

theorem mergeKept_cons (fs : FS) (p : String) (ps : List String) :
    mergeKept fs (p :: ps) =
      (if mergeSkips fs p = true then mergeKept fs ps
       else pagesOf fs p :: mergeKept fs ps) := by
  unfold mergeKept mergeSkips pagesOf
  rw [List.filterMap_cons]
  cases hl : lookupFS fs p with
  | none => simp
  | some d =>
    cases d with
    | blank => simp
    | corrupt => simp
    | pdf pages => by_cases hp : pages = [] <;> simp [hp]

theorem mergeKept_filter (fs : FS) : ∀ (inputs : List String),
    mergeKept fs inputs =
      (inputs.filter (fun p => !(mergeSkips fs p))).map (pagesOf fs) := by
  intro inputs
  induction inputs with
  | nil => rfl
  | cons p ps ih =>
    rw [mergeKept_cons, List.filter_cons]
    by_cases hs : mergeSkips fs p = true
    · rw [if_pos hs, if_neg (by simp [hs]), ih]
    · have hs2 : mergeSkips fs p = false := by
        cases hmb : mergeSkips fs p
        · rfl
        · exact absurd hmb hs
      rw [if_neg hs, if_pos (by simp [hs2]), List.map_cons, ih]

theorem skipped_mem_mergeEvs (fs : FS) (inputs : List String) (p : String)
    (hp : p ∈ inputs) (hs : mergeSkips fs p = true) :
    Ev.skipped p ∈ mergeEvs fs inputs := by
  unfold mergeEvs
  rw [List.mem_flatten]
  refine ⟨mergeEvsOf fs p, List.mem_map_of_mem _ hp, ?_⟩
  unfold mergeEvsOf
  cases hl : lookupFS fs p with
  | none => simp
  | some d =>
    cases d with
    | blank => simp
    | corrupt => simp
    | pdf pages =>
      have hp0 : pages.isEmpty = true := by
        unfold mergeSkips at hs
        rw [hl] at hs
        exact hs
      have hp1 : pages = [] := by simpa using hp0
      simp [hp1]

theorem mergeKept_len_zero_iff (fs : FS) (inputs : List String) :
    (mergeKept fs inputs).length = 0 ↔ ∀ p ∈ inputs, mergeSkips fs p = true := by
  rw [mergeKept_filter, List.length_map, List.length_eq_zero, List.filter_eq_nil_iff]
  constructor
  · intro h p hp
    have := h p hp
    simpa using this
  · intro h p hp
    simp [h p hp]

theorem merge_guarded_spec :
    ∀ (fs : FS) (inputs : List String) (o : String) (ov : Bool),
      inputs ≠ [] →
      ((o ∈ inputs ∨ pathExists fs o = true) → ov = true) →
      (((∀ p ∈ inputs, mergeSkips fs p = true) →
          merge_pdf_files fs inputs o ov = (fs, mergeEvs fs inputs ++ [.errNoValidInputs]))
      ∧ (¬(∀ p ∈ inputs, mergeSkips fs p = true) →
          merge_pdf_files fs inputs o ov =
            (setFS fs o (.pdf (mergeKept fs inputs).flatten),
             mergeEvs fs inputs ++ [.writeDirect o, .infoDone]))
      ∧ (∀ p ∈ inputs, mergeSkips fs p = true →
          Ev.skipped p ∈ (merge_pdf_files fs inputs o ov).2)) := by
  intro fs inputs o ov h0 hguard
  have hng1 : ¬(o ∈ inputs ∧ ov = false) := by
    rintro ⟨hin, hov⟩
    rw [hguard (Or.inl hin)] at hov
    exact absurd hov (by decide)
  have hng2 : ¬(¬(o ∈ inputs) ∧ pathExists fs o = true ∧ ov = false) := by
    rintro ⟨_, hex, hov⟩
    rw [hguard (Or.inr hex)] at hov
    exact absurd hov (by decide)
  have h1 : (∀ p ∈ inputs, mergeSkips fs p = true) →
      merge_pdf_files fs inputs o ov = (fs, mergeEvs fs inputs ++ [.errNoValidInputs]) := by
    intro hall
    unfold merge_pdf_files
    rw [if_neg h0, if_neg hng1, if_neg hng2]
    simp only [mergeScan_spec]
    rw [if_pos ((mergeKept_len_zero_iff fs inputs).mpr hall)]
  have h2 : ¬(∀ p ∈ inputs, mergeSkips fs p = true) →
      merge_pdf_files fs inputs o ov =
        (setFS fs o (.pdf (mergeKept fs inputs).flatten),
         mergeEvs fs inputs ++ [.writeDirect o, .infoDone]) := by
    intro hnall
    unfold merge_pdf_files
    rw [if_neg h0, if_neg hng1, if_neg hng2]
    simp only [mergeScan_spec]
    rw [if_neg (fun hz => hnall ((mergeKept_len_zero_iff fs inputs).mp hz))]
  refine ⟨h1, h2, ?_⟩
  intro p hp hs
  by_cases hall : ∀ q ∈ inputs, mergeSkips fs q = true
  · rw [h1 hall]
    exact List.mem_append_left _ (skipped_mem_mergeEvs fs inputs p hp hs)
  · rw [h2 hall]
    exact List.mem_append_left _ (skipped_mem_mergeEvs fs inputs p hp hs)

/-- Claim C5.  When the output conflicts with no path (or overwrite is on):
if every source is skipped — missing, zero bytes, unreadable, or zero pages —
the merge fails and the file system is unchanged; otherwise it writes to the
output the concatenation, in list order, of the pages of exactly the
non-skipped sources, and every skipped source gets a per-file skip diagnostic
without aborting the merge.  The spec's concrete case (2-page A then 3-page B
giving A1,A2,B1,B2,B3) follows by evaluation. -/
theorem C5_merge_skip_policy :
    (∀ (fs : FS) (inputs : List String) (o : String) (ov : Bool),
      inputs ≠ [] →
      ((o ∈ inputs ∨ pathExists fs o = true) → ov = true) →
      (((∀ p ∈ inputs, mergeSkips fs p = true) →
          merge_pdf_files fs inputs o ov = (fs, mergeEvs fs inputs ++ [.errNoValidInputs]))
      ∧ (¬(∀ p ∈ inputs, mergeSkips fs p = true) →
          merge_pdf_files fs inputs o ov =
            (setFS fs o (.pdf (mergeKept fs inputs).flatten),
             mergeEvs fs inputs ++ [.writeDirect o, .infoDone]))
      ∧ (∀ p ∈ inputs, mergeSkips fs p = true →
          Ev.skipped p ∈ (merge_pdf_files fs inputs o ov).2)))
    ∧ (∀ (fs : FS) (inputs : List String),
        mergeKept fs inputs =
          (inputs.filter (fun p => !(mergeSkips fs p))).map (pagesOf fs))
    ∧ merge_pdf_files [("A", .pdf ["A1", "A2"]), ("B", .pdf ["B1", "B2", "B3"])]
        ["A", "B"] "out" false
      = ([("out", .pdf ["A1", "A2", "B1", "B2", "B3"]),
          ("A", .pdf ["A1", "A2"]), ("B", .pdf ["B1", "B2", "B3"])],
         [.readPdf "A", .readPdf "B", .writeDirect "out", .infoDone]) :=
  ⟨merge_guarded_spec, mergeKept_filter, rfl⟩

/-- Witness for `C5_merge_skip_policy` at concrete inputs. -/
theorem C5_merge_skip_policy_witness :
    merge_pdf_files [("A", FileData.blank)] ["A", "B"] "out" false
      = ([("A", FileData.blank)],
         mergeEvs [("A", FileData.blank)] ["A", "B"] ++ [.errNoValidInputs])
    ∧ merge_pdf_files [("A", FileData.pdf ["p"]), ("C", FileData.corrupt)]
        ["A", "C"] "out" false
      = (setFS [("A", FileData.pdf ["p"]), ("C", FileData.corrupt)] "out"
          (.pdf (mergeKept [("A", FileData.pdf ["p"]), ("C", FileData.corrupt)]
            ["A", "C"]).flatten),
         mergeEvs [("A", FileData.pdf ["p"]), ("C", FileData.corrupt)] ["A", "C"] ++
           [.writeDirect "out", .infoDone]) := by
  constructor
  · exact (C5_merge_skip_policy.1 [("A", FileData.blank)] ["A", "B"] "out" false
      (by decide) (by decide)).1 (by decide)
  · exact (C5_merge_skip_policy.1 [("A", FileData.pdf ["p"]), ("C", FileData.corrupt)]
      ["A", "C"] "out" false (by decide) (by decide)).2.1 (by decide)

/-! ### Extract on a zero-page input (claim C10) -/

/-- Claim C10.  On a zero-page input (with a fresh output path and distinct
input/output), `extract` never consults the range resolver and so never
raises a range error: if the expression strips to empty or to `all` (any
case) it writes a valid zero-page output; for any other expression it logs a
warning, writes no output file, and completes with no error event at all. -/
theorem C10_extract_empty_input (fs : FS) (i o r : String) (ov : Bool)
    (hio : i ≠ o) (hfresh : lookupFS fs o = none)
    (hin : lookupFS fs i = some (.pdf [])) :
    ((normStr r = "all".data ∨ stripStr r = []) →
        extract_pdf_pages fs i o r ov = (setFS fs o (.pdf []), [.readPdf i, .writeDirect o]))
    ∧ (normStr r ≠ "all".data → stripStr r ≠ [] →
        extract_pdf_pages fs i o r ov = (fs, [.readPdf i, .warnEmptyInput i]))
    ∧ (extract_pdf_pages fs i o r ov).2.all (fun e => !(e.isErrEv)) = true := by
  have hguard : ¬(pathExists fs o = true ∧ ov = false) := by
    rintro ⟨hex, _⟩
    rw [pathExists, hfresh] at hex
    exact absurd hex (by decide)
  have h1 : (normStr r = "all".data ∨ stripStr r = []) →
      extract_pdf_pages fs i o r ov = (setFS fs o (.pdf []), [.readPdf i, .writeDirect o]) := by
    intro hr
    unfold extract_pdf_pages
    rw [if_neg hio, if_neg hguard]
    simp only [hin, List.length_nil]
    rw [if_neg (fun hc => hr.elim (fun ha => hc.2.1 ha) (fun hb => hc.2.2 hb)),
      if_pos trivial]
  have h2 : normStr r ≠ "all".data → stripStr r ≠ [] →
      extract_pdf_pages fs i o r ov = (fs, [.readPdf i, .warnEmptyInput i]) := by
    intro hall hemp
    unfold extract_pdf_pages
    rw [if_neg hio, if_neg hguard]
    simp only [hin, List.length_nil]
    rw [if_pos ⟨trivial, hall, hemp⟩, if_neg (by tauto)]
  refine ⟨h1, h2, ?_⟩
  by_cases hA : normStr r = "all".data
  · rw [h1 (Or.inl hA)]
    simp [Ev.isErrEv]
  · by_cases hB : stripStr r = []
    · rw [h1 (Or.inr hB)]
      simp [Ev.isErrEv]
    · rw [h2 hA hB]
      simp [Ev.isErrEv]

/-- Witness for `C10_extract_empty_input` at concrete inputs. -/
theorem C10_extract_empty_input_witness :
    extract_pdf_pages [("a", FileData.pdf [])] "a" "o" " ALL " false
      = (setFS [("a", FileData.pdf [])] "o" (.pdf []), [.readPdf "a", .writeDirect "o"])
    ∧ extract_pdf_pages [("a", FileData.pdf [])] "a" "o" "1-2" false
      = ([("a", FileData.pdf [])], [.readPdf "a", .warnEmptyInput "a"]) := by
  constructor
  · exact (C10_extract_empty_input [("a", FileData.pdf [])] "a" "o" " ALL " false
      (by decide) rfl rfl).1 (Or.inl (by decide))
  · exact (C10_extract_empty_input [("a", FileData.pdf [])] "a" "o" "1-2" false
      (by decide) rfl rfl).2.1 (by decide) (by decide)

end PdfTools
